import Mathlib

/-! Launch preparation pipeline of `starport/services/network/networkchain`.

A shallow embedding of the genesis/launch preparation code:

* `prepare.go` — `Chain.Prepare`, `buildGenesis`, `applyGenesisAccounts`,
  `applyVestingAccounts`, `applyGenesisValidators`,
  `updateConfigFromGenesisValidators`;
* `networkchain.go` — `Chain.Build` (binary build with cache) and
  `fetchSource`.

File-system and CLI effects are modelled as explicit state passing: every
step maps a `ChainState` to a new `ChainState` together with an optional
error message, so an aborted run keeps the mutations it made before the
failing step — exactly as the Go code leaves files behind when it returns
an error.  External collaborators whose bodies are not part of the
embedded sources (`cosmosutil.VerifyPeerFormat`,
`cosmosutil.ChangeAddressPrefix`, the chain CLI commands, the binary
cache store) are modelled from the specification and marked as such in
their doc comments.
-/

deriving instance DecidableEq for Except

namespace NetworkChain

/-- The connectivity descriptor of a validator
(`launchtypes.Peer.Connection`, a protobuf `oneof`).  The Go interface
value can hold a `Peer_TcpAddress`, a `Peer_HttpTunnel`, or anything
else (`nil` or an unknown variant), which the `switch` in
`updateConfigFromGenesisValidators` sends to its `default` branch; the
third constructor stands for that malformed case. -/
inductive PeerConnection where
  | tcpAddress (addr : String)
  | httpTunnel (name : String) (address : String)
  | unknown
deriving DecidableEq, Repr

/-- `launchtypes.Peer`: node id plus connectivity descriptor. -/
structure Peer where
  id : String
  connection : PeerConnection
deriving DecidableEq, Repr

/-- `networkchain.TunneledPeer` as written into the SPN config file. -/
structure TunneledPeer where
  name : String
  address : String
  nodeID : String
  localPort : String
deriving DecidableEq, Repr

/-- `networktypes.GenesisValidator`: the signed join transaction plus the
peer descriptor. -/
structure GenesisValidator where
  gentx : String
  peer : Peer
deriving DecidableEq, Repr

/-- A chain-agnostic account address.  `cosmosutil.ChangeAddressPrefix`
re-encodes a bech32 address to a new prefix; a `bech` address carries its
prefix and payload, `malformed` stands for input that fails decoding. -/
inductive Address where
  | bech (pfx : String) (payload : String)
  | malformed (raw : String)
deriving DecidableEq, Repr

/-- `networktypes.GenesisAccount`. -/
structure GenesisAccount where
  address : Address
  coins : String
deriving DecidableEq, Repr

/-- `networktypes.VestingAccount`. -/
structure VestingAccount where
  address : Address
  totalBalance : String
  vesting : String
  endTime : Int
deriving DecidableEq, Repr

/-- `networktypes.GenesisInformation`: the genesis contributions consumed
by `buildGenesis`. -/
structure GenesisInformation where
  genesisAccounts : List GenesisAccount
  vestingAccounts : List VestingAccount
  genesisValidators : List GenesisValidator
deriving DecidableEq, Repr

/-- The on-disk state touched by the genesis build: the persisted genesis
document (accounts, vesting accounts, gathered gentxs, genesis time), the
gentx directory, `config.toml`'s peer settings and the SPN tunnel config
file. -/
structure ChainState where
  genesisAccounts : List (Address × String)
  genesisVesting : List (Address × String × String × Int)
  genesisGentxs : List String
  genesisTime : Int
  gentxFiles : List (String × String)
  persistentPeers : Option String
  allowDuplicateIP : Bool
  spnConfig : Option (List TunneledPeer)
deriving DecidableEq, Repr

/-- Modelled from the spec: `cosmosutil.VerifyPeerFormat` is not among the
embedded sources; per §4.4 the configurator "fails with
InvalidPeerDescriptor if the descriptor matches neither supported
topology", so a peer is well formed exactly when its descriptor is one of
the two topologies. -/
def verifyPeerFormat (p : Peer) : Bool :=
  match p.connection with
  | PeerConnection.tcpAddress _ => true
  | PeerConnection.httpTunnel _ _ => true
  | PeerConnection.unknown => false

/-- The peer-collection loop of `updateConfigFromGenesisValidators`
(prepare.go:241-260): walk the validators in order with their ordinal
index `i`, reject any malformed descriptor, turn a direct address into
`id@addr`, and turn a tunnel into a `TunneledPeer` bound to local port
`i + 22000` plus the peer entry `id@127.0.0.1:<port>`. -/
def collectPeers : Nat → List GenesisValidator → Except String (List String × List TunneledPeer)
  | _, [] => Except.ok ([], [])
  | i, v :: rest =>
    if verifyPeerFormat v.peer then
      match v.peer.connection with
      | PeerConnection.tcpAddress addr =>
        match collectPeers (i + 1) rest with
        | Except.error e => Except.error e
        | Except.ok (ps, ts) => Except.ok ((v.peer.id ++ "@" ++ addr) :: ps, ts)
      | PeerConnection.httpTunnel name address =>
        let tp : TunneledPeer :=
          { name := name, address := address, nodeID := v.peer.id,
            localPort := toString (i + 22000) }
        match collectPeers (i + 1) rest with
        | Except.error e => Except.error e
        | Except.ok (ps, ts) =>
          Except.ok ((tp.nodeID ++ "@127.0.0.1:" ++ tp.localPort) :: ps, tp :: ts)
      | PeerConnection.unknown => Except.error "invalid peer type"
    else Except.error ("invalid peer: " ++ v.peer.id)

/-- `updateConfigFromGenesisValidators` (prepare.go:236-309): validate and
collect all peers first; only on success overwrite
`p2p.persistent_peers` (when the peer list is non-empty), force
`p2p.allow_duplicate_ip` when a tunnel binding exists, and write the SPN
tunnel config file when tunnel bindings exist. -/
def updateConfigFromGenesisValidators (genesisVals : List GenesisValidator)
    (st : ChainState) : ChainState × Option String :=
  match collectPeers 0 genesisVals with
  | Except.error e => (st, some e)
  | Except.ok (p2pAddresses, tunnelAddresses) =>
    let st1 :=
      if p2pAddresses.isEmpty then st
      else
        { st with
          persistentPeers := some (String.intercalate "," p2pAddresses),
          allowDuplicateIP :=
            if tunnelAddresses.isEmpty then st.allowDuplicateIP else true }
    let st2 :=
      if tunnelAddresses.isEmpty then st1
      else { st1 with spnConfig := some tunnelAddresses }
    (st2, none)

/-- The gentx-writing loop of `applyGenesisValidators`
(prepare.go:215-221): the validator at index `i` is written to the file
`gentx<i>.json` in the gentx directory, in input order. -/
def writeGentxs : Nat → List GenesisValidator → List (String × String)
  | _, [] => []
  | i, v :: rest =>
    ("gentx" ++ toString i ++ ".json", v.gentx) :: writeGentxs (i + 1) rest

/-- Modelled from the spec: the chain CLI command `CollectGentxs` is an
external adapter whose body is not among the embedded sources; per §4.3
step 4 it is "the adapter's gather step to fold them into genesis", so it
replaces the genesis's gathered gentxs with the contents of the gentx
directory. -/
def collectGentxs (st : ChainState) : ChainState :=
  { st with genesisGentxs := st.gentxFiles.map Prod.snd }

/-- `applyGenesisValidators` (prepare.go:197-233): with no validators the
step is skipped; otherwise reset the gentx directory, write the gentx
files in index order, gather them into the genesis, and then update the
peer configuration. -/
def applyGenesisValidators (genesisVals : List GenesisValidator)
    (st : ChainState) : ChainState × Option String :=
  if genesisVals.isEmpty then (st, none)
  else
    let st1 := { st with gentxFiles := writeGentxs 0 genesisVals }
    let st2 := collectGentxs st1
    updateConfigFromGenesisValidators genesisVals st2

/-- Modelled from the spec: `cosmosutil.ChangeAddressPrefix` is not among
the embedded sources; per §4.3 step 1 every address is re-encoded "from
its source prefix to targetAddressPrefix" and the step "fails with
AddressFormatError on malformed input". -/
def changeAddressPfx (a : Address) (target : String) : Except String Address :=
  match a with
  | Address.bech _ payload => Except.ok (Address.bech target payload)
  | Address.malformed _ => Except.error "invalid address format"

/-- Modelled from the spec: the chain CLI command `AddGenesisAccount`
(adapter interface, §6) adds a funded account entry to the genesis. -/
def addGenesisAccount (addr : Address) (coins : String) (st : ChainState) : ChainState :=
  { st with genesisAccounts := st.genesisAccounts ++ [(addr, coins)] }

/-- Modelled from the spec: the chain CLI command `AddVestingAccount`
(adapter interface, §6) adds a delayed-vesting account entry to the
genesis. -/
def addVestingAccount (addr : Address) (total vesting : String) (endTime : Int)
    (st : ChainState) : ChainState :=
  { st with genesisVesting := st.genesisVesting ++ [(addr, total, vesting, endTime)] }

/-- `applyGenesisAccounts` (prepare.go:134-161): for each account in
order, re-encode its address to the target prefix and invoke the CLI to
add it; the first failure aborts, keeping the accounts already applied. -/
def applyGenesisAccounts (genesisAccs : List GenesisAccount) (pfx : String)
    (st : ChainState) : ChainState × Option String :=
  match genesisAccs with
  | [] => (st, none)
  | acc :: rest =>
    match changeAddressPfx acc.address pfx with
    | Except.error e => (st, some e)
    | Except.ok addr => applyGenesisAccounts rest pfx (addGenesisAccount addr acc.coins st)

/-- `applyVestingAccounts` (prepare.go:164-194): same shape as
`applyGenesisAccounts`, with the delayed-vesting CLI call. -/
def applyVestingAccounts (vestingAccs : List VestingAccount) (pfx : String)
    (st : ChainState) : ChainState × Option String :=
  match vestingAccs with
  | [] => (st, none)
  | acc :: rest =>
    match changeAddressPfx acc.address pfx with
    | Except.error e => (st, some e)
    | Except.ok addr =>
      applyVestingAccounts rest pfx
        (addVestingAccount addr acc.totalBalance acc.vesting acc.endTime st)

/-- `buildGenesis` (prepare.go:100-131): detect the address prefix, apply
genesis accounts, vesting accounts and validators in that order (each
failure aborting with wrapped context and keeping earlier mutations), and
finally set the genesis time to the launch time.  The prefix detection
result stands for `c.detectPrefix`, an external call. -/
def buildGenesis (prefixRes : Except String String) (launchTime : Int)
    (gi : GenesisInformation) (st : ChainState) : ChainState × Option String :=
  match prefixRes with
  | Except.error e => (st, some ("error detecting chain prefix: " ++ e))
  | Except.ok pfx =>
    match applyGenesisAccounts gi.genesisAccounts pfx st with
    | (st1, some e) => (st1, some ("error applying genesis accounts to genesis: " ++ e))
    | (st1, none) =>
      match applyVestingAccounts gi.vestingAccounts pfx st1 with
      | (st2, some e) => (st2, some ("error applying vesting accounts to genesis: " ++ e))
      | (st2, none) =>
        match applyGenesisValidators gi.genesisValidators st2 with
        | (st3, some e) => (st3, some ("error applying genesis validators to genesis: " ++ e))
        | (st3, none) => ({ st3 with genesisTime := launchTime }, none)

/-- The peer-list entry contributed by the validator at ordinal index
`i`, following the spec's words: a direct-address peer contributes
`id@addr` verbatim, a tunnel peer contributes an entry bound to
`127.0.0.1:<22000+i>`.  Used to characterize the order and content of the
peer list `collectPeers` produces. -/
def peerEntry (i : Nat) (v : GenesisValidator) : String :=
  match v.peer.connection with
  | PeerConnection.tcpAddress addr => v.peer.id ++ "@" ++ addr
  | PeerConnection.httpTunnel _ _ => v.peer.id ++ "@127.0.0.1:" ++ toString (i + 22000)
  | PeerConnection.unknown => ""

/-- One peer entry per validator, in list order, indices starting at
`k`. -/
def peerEntriesFrom (k : Nat) : List GenesisValidator → List String
  | [] => []
  | v :: rest => peerEntry k v :: peerEntriesFrom (k + 1) rest

/-- The tunnel bindings of a validator list, in list order, following the
spec's words: the tunneled validator at ordinal index `i` yields a
binding to local port `22000+i`; direct validators yield none. -/
def tunnelBindingsFrom (k : Nat) : List GenesisValidator → List TunneledPeer
  | [] => []
  | v :: rest =>
    match v.peer.connection with
    | PeerConnection.httpTunnel name address =>
      { name := name, address := address, nodeID := v.peer.id,
        localPort := toString (k + 22000) } :: tunnelBindingsFrom (k + 1) rest
    | _ => tunnelBindingsFrom (k + 1) rest

/-- The peer-configuration files are untouched between two states: same
`p2p.persistent_peers`, same `p2p.allow_duplicate_ip`, same SPN tunnel
config file. -/
def peerConfigUnchanged (st stNew : ChainState) : Prop :=
  stNew.persistentPeers = st.persistentPeers ∧
  stNew.allowDuplicateIP = st.allowDuplicateIP ∧
  stNew.spnConfig = st.spnConfig

/-! ## Binary build with cache (`networkchain.go`, `Chain.Build`) -/

/-- The error class of `checksum.BinaryChecksum`: `Chain.Build`
distinguishes the "tool not found" class (`errors.Is(err,
exec.ErrNotFound)`) from every other failure. -/
inductive ChecksumErr where
  | toolNotFound
  | other (msg : String)
deriving DecidableEq, Repr

/-- The error message `Chain.Build` propagates for a checksum failure. -/
def checksumErrMsg : ChecksumErr → String
  | ChecksumErr.toolNotFound => "checksum: executable file not found"
  | ChecksumErr.other msg => msg

/-- A build-cache record: `CachedBinaryRecord` of the spec,
{launchIdentity, sourceHash, binaryChecksum}. -/
structure CachedRecord where
  launchID : Nat
  sourceHash : String
  checksum : String
deriving DecidableEq, Repr

/-- Modelled from the spec: `CheckBinaryCacheForLaunchID` is not among the
embedded sources; per §4.2 "a lookup is a hit only if a prior record
exists for the exact (launchIdentity, sourceHash) pair and recomputing
the checksum of the binary currently on disk equals the stored checksum",
and a failed recomputation ("tool not found") "is treated as no cache",
so an absent checksum never matches. -/
def checkBinaryCacheForLaunchID (cache : List CachedRecord) (launchID : Nat)
    (binaryChecksum : Option String) (sourceHash : String) : Bool :=
  match cache.find? (fun r => r.launchID == launchID) with
  | some r => r.sourceHash == sourceHash && binaryChecksum == some r.checksum
  | none => false

/-- Modelled from the spec: `CacheBinaryForLaunchID` is not among the
embedded sources; per §4.2/§3 the record {launchIdentity, sourceHash,
binaryChecksum} is "written after a successful build", replacing the
record previously held for that launch identity. -/
def cacheBinaryForLaunchID (cache : List CachedRecord) (launchID : Nat)
    (binaryChecksum : String) (sourceHash : String) : List CachedRecord :=
  { launchID := launchID, sourceHash := sourceHash, checksum := binaryChecksum } ::
    cache.filter (fun r => r.launchID ≠ launchID)

/-- The external outcomes `Chain.Build` depends on: the configured binary
name (`c.chain.Binary()`), the checksum of the binary currently on disk
(`checksum.BinaryChecksum`, before the lookup), the raw build
(`c.chain.Build`), and the checksum recomputed after the build. -/
structure BuildEnv where
  binaryName : Except String String
  diskChecksum : Except ChecksumErr String
  buildRes : Except String String
  postChecksum : Except ChecksumErr String
deriving DecidableEq, Repr

/-- The cache-lookup phase of `Chain.Build` (networkchain.go:248-265):
skipped entirely for launch identity zero; otherwise read the binary
name, compute the on-disk checksum (degrading a "tool not found" failure
to an absent checksum, aborting on any other failure), and consult the
cache.  Returns `some binaryName` on a hit, `none` on a miss. -/
def buildLookup (env : BuildEnv) (cache : List CachedRecord) (launchID : Nat)
    (sourceHash : String) : Except String (Option String) :=
  if launchID == 0 then Except.ok none
  else
    match env.binaryName with
    | Except.error e => Except.error e
    | Except.ok binaryName =>
      let binaryChecksum : Except String (Option String) :=
        match env.diskChecksum with
        | Except.ok c => Except.ok (some c)
        | Except.error ChecksumErr.toolNotFound => Except.ok none
        | Except.error e => Except.error (checksumErrMsg e)
      match binaryChecksum with
      | Except.error e => Except.error e
      | Except.ok c =>
        if checkBinaryCacheForLaunchID cache launchID c sourceHash then
          Except.ok (some binaryName)
        else Except.ok none

/-- The rebuild phase of `Chain.Build` (networkchain.go:267-282): build
the binary, recompute its checksum (any failure, "tool not found"
included, aborts), and store the cache record unconditionally — the
launch identity is not inspected here. -/
def buildRebuild (env : BuildEnv) (cache : List CachedRecord) (launchID : Nat)
    (sourceHash : String) : Except String (String × List CachedRecord × Bool) :=
  match env.buildRes with
  | Except.error e => Except.error e
  | Except.ok binaryName =>
    match env.postChecksum with
    | Except.error e => Except.error (checksumErrMsg e)
    | Except.ok binaryChecksum =>
      Except.ok (binaryName, cacheBinaryForLaunchID cache launchID binaryChecksum sourceHash, false)

/-- `Chain.Build` (networkchain.go:247-283): try the cache lookup, short
circuit on a hit (returning the existing binary path, the unchanged cache
and the hit flag `true`), otherwise rebuild. -/
def build (env : BuildEnv) (cache : List CachedRecord) (launchID : Nat)
    (sourceHash : String) : Except String (String × List CachedRecord × Bool) :=
  match buildLookup env cache launchID sourceHash with
  | Except.error e => Except.error e
  | Except.ok (some binaryName) => Except.ok (binaryName, cache, true)
  | Except.ok none => buildRebuild env cache launchID sourceHash

/-! ## Source fetching (`networkchain.go`, `fetchSource`) -/

/-- The cloned repository as `fetchSource` sees it: revision resolution
(`repo.ResolveRevision`), the current head (`repo.Head`, absent when the
clone has no head to resolve), and whether checking out a given commit
fails (`wt.Checkout`). -/
structure Repo where
  resolve : String → Option String
  head : Option String
  checkoutFails : String → Bool

/-- `fetchSource` (networkchain.go:286-346): clone the remote (restricted
to `ref` when one is given), then either check out the pinned hash —
recording the pin itself as the resolved hash and the resolved commit as
the checked-out one — or, with no pin, record the clone's current HEAD
hash without checking anything out.  The result is the temporary path,
the resolved hash, and the commit explicitly checked out (if any). -/
def fetchSource (tmpPath : String) (clone : String → String → Except String Repo)
    (url ref customHash : String) : Except String (String × String × Option String) :=
  match clone url ref with
  | Except.error e => Except.error e
  | Except.ok repo =>
    if customHash ≠ "" then
      match repo.resolve customHash with
      | none => Except.error "revision not found"
      | some h =>
        if repo.checkoutFails h then Except.error "checkout failed"
        else Except.ok (tmpPath, customHash, some h)
    else
      match repo.head with
      | none => Except.error "head not found"
      | some h => Except.ok (tmpPath, h, none)

/-! ## Preparation state machine (`prepare.go`, `Chain.Prepare`) -/

/-- The outcome of `os.Stat` on the chain home directory, the sole
discriminator of `Prepare`'s entry branches: present, absent
(`os.IsNotExist`), or a different stat failure. -/
inductive StatRes where
  | present
  | absent
  | failed (msg : String)
deriving DecidableEq, Repr

/-- The externally observable operations `Prepare` may invoke, in
invocation order.  `cacheLookup` is the build-cache consultation done by
`networkchain.Chain.Build` (networkchain.go:249-265); `chainBuild` is the
raw `c.chain.Build` of the underlying chain service, which `Prepare`
calls directly (prepare.go:61). -/
inductive Op where
  | init
  | chainBuild
  | cacheLookup
  | initGenesis
  | buildGenesis
  | validateGenesis
  | resetState
deriving DecidableEq, Repr

/-- The external outcomes `Prepare` depends on: the home-directory stat,
the full initialization (`c.Init`, which generates a fresh validator
key), the binary name, the raw build, the genesis re-initialization
(`c.initGenesis`), the genesis build, and the validate/reset CLI calls. -/
structure PrepareEnv where
  homeStat : StatRes
  initRes : Except String Unit
  freshKey : String
  binaryName : Except String String
  chainBuildRes : Except String String
  initGenesisRes : Except String Unit
  buildGenesisRes : Except String Unit
  validateRes : Except String Unit
  resetRes : Except String Unit
deriving DecidableEq, Repr

/-- The node state `Prepare` may touch that the claims observe: the local
validator key. -/
structure NodeState where
  validatorKey : Option String
deriving DecidableEq, Repr

/-- The tail shared by both entry branches of `Prepare`
(prepare.go:73-97): build the genesis, validate it, reset the local chain
state. -/
def prepareTail (env : PrepareEnv) (st : NodeState) (tr : List Op) :
    NodeState × List Op × Option String :=
  let tr1 := tr ++ [Op.buildGenesis]
  match env.buildGenesisRes with
  | Except.error e => (st, tr1, some e)
  | Except.ok _ =>
    let tr2 := tr1 ++ [Op.validateGenesis]
    match env.validateRes with
    | Except.error e => (st, tr2, some e)
    | Except.ok _ =>
      let tr3 := tr2 ++ [Op.resetState]
      match env.resetRes with
      | Except.error e => (st, tr3, some e)
      | Except.ok _ => (st, tr3, none)

/-- `Chain.Prepare` (prepare.go:36-97).  When the home directory is
absent, perform the full initialization (`c.Init`, generating a fresh
validator key) and read the binary name; when the stat fails otherwise,
abort; when the home directory is present, rebuild the binary by calling
the underlying chain service's build directly and re-initialize the
genesis defaults, leaving the validator key untouched.  Both branches
continue with the shared tail.  The result carries the final node state,
the trace of operations invoked, and the error (if any). -/
def prepare (env : PrepareEnv) (st : NodeState) : NodeState × List Op × Option String :=
  match env.homeStat with
  | StatRes.failed msg => (st, [], some msg)
  | StatRes.absent =>
    match env.initRes with
    | Except.error e => (st, [Op.init], some e)
    | Except.ok _ =>
      let st1 : NodeState := { validatorKey := some env.freshKey }
      match env.binaryName with
      | Except.error e => (st1, [Op.init], some e)
      | Except.ok _ => prepareTail env st1 [Op.init]
  | StatRes.present =>
    match env.chainBuildRes with
    | Except.error e => (st, [Op.chainBuild], some e)
    | Except.ok _ =>
      match env.initGenesisRes with
      | Except.error e => (st, [Op.chainBuild, Op.initGenesis], some e)
      | Except.ok _ => prepareTail env st [Op.chainBuild, Op.initGenesis]

/-! ## Concrete instances used to evaluate the model -/

/-- An empty on-disk state: fresh genesis defaults, no gentx files, no
peer configuration, duplicate IPs not allowed. -/
def emptyState : ChainState :=
  { genesisAccounts := [], genesisVesting := [], genesisGentxs := [],
    genesisTime := 0, gentxFiles := [], persistentPeers := none,
    allowDuplicateIP := false, spnConfig := none }

/-- A validator whose peer descriptor matches neither topology. -/
def badPeerVal : GenesisValidator :=
  { gentx := "gentx-payload-bad",
    peer := { id := "badnode", connection := PeerConnection.unknown } }

/-- A contribution set holding one well-formed direct validator followed
by the malformed one. -/
def giBad : GenesisInformation :=
  { genesisAccounts := [], vestingAccounts := [],
    genesisValidators :=
      [ { gentx := "gentx-payload-0",
          peer := { id := "goodnode", connection := PeerConnection.tcpAddress "9.9.9.9:26656" } },
        badPeerVal ] }

/-- The three-validator scenario list at concrete identities: V1 direct at
`1.2.3.4:26656`, V2 tunneled through `relayA`, V3 tunneled through
`relayB`. -/
def scenarioVals : List GenesisValidator :=
  [ { gentx := "g1",
      peer := { id := "idOne", connection := PeerConnection.tcpAddress "1.2.3.4:26656" } },
    { gentx := "g2",
      peer := { id := "idTwo", connection := PeerConnection.httpTunnel "relayA" "relaya.example:443" } },
    { gentx := "g3",
      peer := { id := "idThree", connection := PeerConnection.httpTunnel "relayB" "relayb.example:443" } } ]

/-- A build environment whose on-disk binary matches the stored cache
record. -/
def envHit : BuildEnv :=
  { binaryName := Except.ok "spnd",
    diskChecksum := Except.ok "sum-1",
    buildRes := Except.ok "spnd",
    postChecksum := Except.ok "sum-1" }

/-- A cache holding the record for launch identity 5, source hash
`srchash`, checksum `sum-1`. -/
def cacheWithHit : List CachedRecord :=
  [ { launchID := 5, sourceHash := "srchash", checksum := "sum-1" } ]

/-- A build environment whose post-build checksum recomputation fails
with the "tool not found" class. -/
def envPostNotFound : BuildEnv :=
  { binaryName := Except.ok "spnd",
    diskChecksum := Except.ok "sum-1",
    buildRes := Except.ok "spnd",
    postChecksum := Except.error ChecksumErr.toolNotFound }

/-- A build environment whose pre-lookup checksum fails with the "tool
not found" class and whose build succeeds. -/
def envLookupNotFound : BuildEnv :=
  { binaryName := Except.ok "spnd",
    diskChecksum := Except.error ChecksumErr.toolNotFound,
    buildRes := Except.ok "spnd",
    postChecksum := Except.ok "sum-2" }

/-- A preparation environment with the home directory present and every
external step succeeding. -/
def envHome : PrepareEnv :=
  { homeStat := StatRes.present,
    initRes := Except.ok (),
    freshKey := "fresh-key",
    binaryName := Except.ok "spnd",
    chainBuildRes := Except.ok "spnd",
    initGenesisRes := Except.ok (),
    buildGenesisRes := Except.ok (),
    validateRes := Except.ok (),
    resetRes := Except.ok () }

/-- A preparation environment with the home directory absent and every
external step succeeding. -/
def envNoHome : PrepareEnv :=
  { envHome with homeStat := StatRes.absent }

/-- A node state that already holds a validator key. -/
def keyedState : NodeState := { validatorKey := some "existing-key" }

/-- A repository whose pinned revision `abc123` resolves to the full
commit `abc123full`, with head `headhash` and no checkout failures. -/
def repoOne : Repo :=
  { resolve := fun s => if s == "abc123" then some "abc123full" else none,
    head := some "headhash",
    checkoutFails := fun _ => false }

/-- A clone step that always produces `repoOne`. -/
def cloneOne : String → String → Except String Repo :=
  fun _ _ => Except.ok repoOne

/-! ## Decimal rendering of naturals is injective

The tunnel ports are stored as strings (`strconv.Itoa(i + 22000)`), so
distinctness of the assigned ports reduces to injectivity of the decimal
rendering, proved here against the core renderer. -/

/-- The digit accumulator of `Nat.toDigitsCore` only ever grows on the
right. -/
theorem toDigitsCore_append (fuel : Nat) : ∀ (n : Nat) (ds : List Char),
    Nat.toDigitsCore 10 fuel n ds = Nat.toDigitsCore 10 fuel n [] ++ ds := by
  induction fuel with
  | zero => intro n ds; simp [Nat.toDigitsCore]
  | succ f ih =>
    intro n ds
    simp only [Nat.toDigitsCore]
    by_cases h : n / 10 = 0
    · simp [h]
    · simp only [h, if_false]
      rw [ih (n / 10) (Nat.digitChar (n % 10) :: ds), ih (n / 10) [Nat.digitChar (n % 10)]]
      simp

/-- `Nat.toDigitsCore` ignores its fuel as long as it exceeds the
number. -/
theorem toDigitsCore_fuel : ∀ (fOne n fTwo : Nat) (ds : List Char), n < fOne → n < fTwo →
    Nat.toDigitsCore 10 fOne n ds = Nat.toDigitsCore 10 fTwo n ds := by
  intro fOne
  induction fOne with
  | zero => intro n fTwo ds hOne _; omega
  | succ f ih =>
    intro n fTwo ds hOne hTwo
    cases fTwo with
    | zero => omega
    | succ g =>
      simp only [Nat.toDigitsCore]
      by_cases h : n / 10 = 0
      · simp [h]
      · simp only [h, if_false]
        have hn : 0 < n := Nat.pos_of_ne_zero (by intro e; simp [e] at h)
        have hd : n / 10 < n := Nat.div_lt_self hn (by omega)
        exact ih (n / 10) g _ (by omega) (by omega)

/-- The code of a decimal digit character recovers the digit. -/
theorem digitCharVal {n : Nat} (h : n < 10) : (Nat.digitChar n).toNat = n + 48 := by
  interval_cases n <;> decide

/-- Folding the rendered digits back recovers the rendered number. -/
theorem foldDigits_toDigitsCore (n : Nat) :
    List.foldl (fun a c => a * 10 + (c.toNat - 48)) 0 (Nat.toDigitsCore 10 (n + 1) n []) = n := by
  induction n using Nat.strong_induction_on with
  | _ n ih =>
    simp only [Nat.toDigitsCore]
    by_cases h : n / 10 = 0
    · simp [h, digitCharVal (Nat.mod_lt n (by omega))]
      omega
    · simp only [h, if_false]
      rw [toDigitsCore_append]
      rw [List.foldl_append]
      have hn : 0 < n := Nat.pos_of_ne_zero (by intro e; simp [e] at h)
      have hd : n / 10 < n := Nat.div_lt_self hn (by omega)
      rw [toDigitsCore_fuel n (n / 10) (n / 10 + 1) [] (by omega) (by omega)]
      rw [ih (n / 10) hd]
      simp only [List.foldl]
      rw [digitCharVal (Nat.mod_lt n (by omega))]
      omega

/-- Decimal `toString` on naturals is injective. -/
theorem natToStringInjective : Function.Injective (fun n : Nat => toString n) := by
  intro m n h
  have hm := foldDigits_toDigitsCore m
  have hn := foldDigits_toDigitsCore n
  have hTwo : Nat.toDigits 10 m = Nat.toDigits 10 n :=
    List.asString_inj.mp h
  unfold Nat.toDigits at hTwo
  rw [hTwo] at hm
  omega

/-! ## Structure of the collected peer configuration -/

/-- On an all-valid validator list, `collectPeers` succeeds and produces
exactly one peer entry per validator in list order, and one tunnel
binding per tunneled validator in list order. -/
theorem collectPeers_eq_of_valid : ∀ (vals : List GenesisValidator) (k : Nat),
    (∀ v ∈ vals, verifyPeerFormat v.peer = true) →
    collectPeers k vals = Except.ok (peerEntriesFrom k vals, tunnelBindingsFrom k vals) := by
  intro vals
  induction vals with
  | nil => intro k _; rfl
  | cons v rest ih =>
    intro k hval
    have hv : verifyPeerFormat v.peer = true := hval v (by simp)
    have hrest : ∀ w ∈ rest, verifyPeerFormat w.peer = true :=
      fun w hw => hval w (by simp [hw])
    cases hc : v.peer.connection with
    | tcpAddress addr =>
      simp [collectPeers, hv, hc, ih (k + 1) hrest, peerEntriesFrom, peerEntry,
        tunnelBindingsFrom]
    | httpTunnel name address =>
      simp [collectPeers, hv, hc, ih (k + 1) hrest, peerEntriesFrom, peerEntry,
        tunnelBindingsFrom]
    | unknown => simp [verifyPeerFormat, hc] at hv

/-- A successful `collectPeers` run yields exactly the characterized peer
entries and tunnel bindings. -/
theorem collectPeers_ok_elim : ∀ (vals : List GenesisValidator) (k : Nat)
    (ps : List String) (ts : List TunneledPeer),
    collectPeers k vals = Except.ok (ps, ts) →
    ps = peerEntriesFrom k vals ∧ ts = tunnelBindingsFrom k vals := by
  intro vals
  induction vals with
  | nil =>
    intro k ps ts h
    simp [collectPeers] at h
    simp [peerEntriesFrom, tunnelBindingsFrom, h.1.symm, h.2.symm]
  | cons v rest ih =>
    intro k ps ts h
    by_cases hv : verifyPeerFormat v.peer
    · cases hc : v.peer.connection with
      | tcpAddress addr =>
        simp only [collectPeers, hv, if_true, hc] at h
        cases hrec : collectPeers (k + 1) rest with
        | error e => rw [hrec] at h; exact absurd h (by simp)
        | ok pr =>
          rw [hrec] at h
          obtain ⟨psr, tsr⟩ := pr
          simp at h
          obtain ⟨hps, hts⟩ := h
          obtain ⟨ihp, iht⟩ := ih (k + 1) psr tsr hrec
          subst hps hts
          simp [peerEntriesFrom, peerEntry, tunnelBindingsFrom, hc, ihp, iht]
      | httpTunnel name address =>
        simp only [collectPeers, hv, if_true, hc] at h
        cases hrec : collectPeers (k + 1) rest with
        | error e => rw [hrec] at h; exact absurd h (by simp)
        | ok pr =>
          rw [hrec] at h
          obtain ⟨psr, tsr⟩ := pr
          simp at h
          obtain ⟨hps, hts⟩ := h
          obtain ⟨ihp, iht⟩ := ih (k + 1) psr tsr hrec
          subst hps hts
          simp [peerEntriesFrom, peerEntry, tunnelBindingsFrom, hc, ihp, iht]
      | unknown => simp [verifyPeerFormat, hc] at hv
    · simp [collectPeers, hv] at h

/-- Any validator list holding a malformed descriptor makes
`collectPeers` fail. -/
theorem collectPeers_error_of_invalid : ∀ (vals : List GenesisValidator) (k : Nat),
    (∃ v ∈ vals, verifyPeerFormat v.peer = false) →
    ∃ e, collectPeers k vals = Except.error e := by
  intro vals
  induction vals with
  | nil => intro k h; simp at h
  | cons v rest ih =>
    intro k h
    by_cases hv : verifyPeerFormat v.peer
    · obtain ⟨w, hw, hwf⟩ := h
      rcases List.mem_cons.mp hw with rfl | hw2
      · rw [hv] at hwf; exact absurd hwf (by simp)
      · obtain ⟨e, he⟩ := ih (k + 1) ⟨w, hw2, hwf⟩
        cases hc : v.peer.connection with
        | tcpAddress addr => exact ⟨e, by simp [collectPeers, hv, hc, he]⟩
        | httpTunnel name address => exact ⟨e, by simp [collectPeers, hv, hc, he]⟩
        | unknown => exact ⟨"invalid peer type", by simp [collectPeers, hv, hc]⟩
    · exact ⟨"invalid peer: " ++ v.peer.id, by
        simp at hv
        simp [collectPeers, hv]⟩

/-- Every port among the tunnel bindings from index `k` on renders a
number at least `k + 22000`. -/
theorem tunnelBindingsFrom_port_mem : ∀ (vals : List GenesisValidator) (k : Nat) (p : String),
    p ∈ (tunnelBindingsFrom k vals).map TunneledPeer.localPort →
    ∃ j, k ≤ j ∧ p = toString (j + 22000) := by
  intro vals
  induction vals with
  | nil => intro k p h; simp [tunnelBindingsFrom] at h
  | cons v rest ih =>
    intro k p h
    cases hc : v.peer.connection with
    | tcpAddress addr =>
      rw [tunnelBindingsFrom, hc] at h
      obtain ⟨j, hj, hp⟩ := ih (k + 1) p h
      exact ⟨j, by omega, hp⟩
    | httpTunnel name address =>
      rw [tunnelBindingsFrom, hc] at h
      simp at h
      rcases h with hp | h
      · exact ⟨k, le_refl k, hp⟩
      · obtain ⟨j, hj, hp⟩ := ih (k + 1) p (by simpa using h)
        exact ⟨j, by omega, hp⟩
    | unknown =>
      rw [tunnelBindingsFrom, hc] at h
      obtain ⟨j, hj, hp⟩ := ih (k + 1) p h
      exact ⟨j, by omega, hp⟩

/-- The assigned tunnel ports are pairwise distinct. -/
theorem tunnelBindingsFrom_ports_nodup : ∀ (vals : List GenesisValidator) (k : Nat),
    ((tunnelBindingsFrom k vals).map TunneledPeer.localPort).Nodup := by
  intro vals
  induction vals with
  | nil => intro k; simp [tunnelBindingsFrom]
  | cons v rest ih =>
    intro k
    cases hc : v.peer.connection with
    | tcpAddress addr => rw [tunnelBindingsFrom, hc]; exact ih (k + 1)
    | httpTunnel name address =>
      rw [tunnelBindingsFrom, hc]
      simp only [List.map_cons]
      refine List.Nodup.cons ?_ (ih (k + 1))
      intro hmem
      obtain ⟨j, hj, hp⟩ := tunnelBindingsFrom_port_mem rest (k + 1) _ hmem
      have := natToStringInjective hp
      omega
    | unknown => rw [tunnelBindingsFrom, hc]; exact ih (k + 1)

/-- The tunneled validator at absolute index `k + i` receives the binding
with local port `k + i + 22000`. -/
theorem tunnelBindingsFrom_index : ∀ (vals : List GenesisValidator) (k i : Nat)
    (h : i < vals.length) (name address : String),
    (vals.get ⟨i, h⟩).peer.connection = PeerConnection.httpTunnel name address →
    ({ name := name, address := address, nodeID := (vals.get ⟨i, h⟩).peer.id,
       localPort := toString (k + i + 22000) } : TunneledPeer) ∈ tunnelBindingsFrom k vals := by
  intro vals
  induction vals with
  | nil => intro k i h; simp at h
  | cons v rest ih =>
    intro k i h name address hc
    cases i with
    | zero =>
      simp only [List.get] at hc ⊢
      rw [tunnelBindingsFrom, hc]
      simp
    | succ j =>
      simp only [List.get] at hc ⊢
      have hmem := ih (k + 1) j (by simpa using h) name address hc
      have harith : k + 1 + j + 22000 = k + (j + 1) + 22000 := by omega
      rw [harith] at hmem
      cases hcv : v.peer.connection with
      | tcpAddress addr => rw [tunnelBindingsFrom, hcv]; exact hmem
      | httpTunnel nm ad => rw [tunnelBindingsFrom, hcv]; exact List.mem_cons_of_mem _ hmem
      | unknown => rw [tunnelBindingsFrom, hcv]; exact hmem

/-- **C4**: for every ordered validator contribution list, the tunneled
validator at ordinal index `i` of the full list is assigned local port
`22000 + i`, so the assigned ports are pairwise distinct (and, the
collection being a pure function of the ordered input, deterministic);
and in the three-validator scenario (V1 direct at `1.2.3.4:26656`, V2
tunneled through relayA, V3 through relayB) the peer strings are exactly
`[<V1id>@1.2.3.4:26656, <V2id>@127.0.0.1:22001,
<V3id>@127.0.0.1:22002]`. -/
theorem tunnel_port_assignment :
    (∀ (vals : List GenesisValidator) (ps : List String) (ts : List TunneledPeer),
      collectPeers 0 vals = Except.ok (ps, ts) →
      (∀ (i : Nat) (h : i < vals.length) (name address : String),
        (vals.get ⟨i, h⟩).peer.connection = PeerConnection.httpTunnel name address →
        ({ name := name, address := address, nodeID := (vals.get ⟨i, h⟩).peer.id,
           localPort := toString (i + 22000) } : TunneledPeer) ∈ ts) ∧
      (ts.map TunneledPeer.localPort).Nodup) ∧
    (∀ idOne idTwo idThree gOne gTwo gThree aTwo aThree : String,
      collectPeers 0
        [ { gentx := gOne,
            peer := { id := idOne, connection := PeerConnection.tcpAddress "1.2.3.4:26656" } },
          { gentx := gTwo,
            peer := { id := idTwo, connection := PeerConnection.httpTunnel "relayA" aTwo } },
          { gentx := gThree,
            peer := { id := idThree, connection := PeerConnection.httpTunnel "relayB" aThree } } ] =
      Except.ok
        ([idOne ++ "@1.2.3.4:26656", idTwo ++ "@127.0.0.1:22001", idThree ++ "@127.0.0.1:22002"],
          [ { name := "relayA", address := aTwo, nodeID := idTwo, localPort := "22001" },
            { name := "relayB", address := aThree, nodeID := idThree, localPort := "22002" } ])) := by
  constructor
  · intro vals ps ts h
    obtain ⟨hps, hts⟩ := collectPeers_ok_elim vals 0 ps ts h
    subst hts
    constructor
    · intro i hi name address hc
      have hmem := tunnelBindingsFrom_index vals 0 i hi name address hc
      simpa using hmem
    · exact tunnelBindingsFrom_ports_nodup vals 0
  · intro idOne idTwo idThree gOne gTwo gThree aTwo aThree
    rw [collectPeers_eq_of_valid _ 0 (by
      intro v hv
      simp at hv
      rcases hv with rfl | rfl | rfl <;> rfl)]
    have eOne : "@" ++ "1.2.3.4:26656" = "@1.2.3.4:26656" := rfl
    have eTwo : "@127.0.0.1:" ++ toString (1 + 22000) = "@127.0.0.1:22001" := rfl
    have eThree : "@127.0.0.1:" ++ toString (2 + 22000) = "@127.0.0.1:22002" := rfl
    have eFour : toString (1 + 22000) = "22001" := rfl
    have eFive : toString (2 + 22000) = "22002" := rfl
    simp [peerEntriesFrom, peerEntry, tunnelBindingsFrom, String.append_assoc,
      eOne, eTwo, eThree, eFour, eFive]

/-- Witness for C4: in the concrete three-validator scenario the second
validator's binding carries port `22001` and the scenario's two assigned
ports are distinct. -/
theorem tunnel_port_assignment_witness :
    (({ name := "relayA", address := "relaya.example:443", nodeID := "idTwo",
        localPort := toString (1 + 22000) } : TunneledPeer) ∈
      ([ { name := "relayA", address := "relaya.example:443", nodeID := "idTwo",
           localPort := "22001" },
         { name := "relayB", address := "relayb.example:443", nodeID := "idThree",
           localPort := "22002" } ] : List TunneledPeer)) ∧
    (([ { name := "relayA", address := "relaya.example:443", nodeID := "idTwo",
          localPort := "22001" },
        { name := "relayB", address := "relayb.example:443", nodeID := "idThree",
          localPort := "22002" } ] : List TunneledPeer).map TunneledPeer.localPort).Nodup := by
  have h := tunnel_port_assignment.1 scenarioVals
    ["idOne@1.2.3.4:26656", "idTwo@127.0.0.1:22001", "idThree@127.0.0.1:22002"]
    [ { name := "relayA", address := "relaya.example:443", nodeID := "idTwo",
        localPort := "22001" },
      { name := "relayB", address := "relayb.example:443", nodeID := "idThree",
        localPort := "22002" } ] (by decide)
  exact ⟨h.1 1 (by decide) "relayA" "relaya.example:443" rfl, h.2⟩

/-! ## Ordering of gentx files and peer entries -/

/-- The gentx write loop emits one file per validator. -/
theorem writeGentxs_length : ∀ (vals : List GenesisValidator) (k : Nat),
    (writeGentxs k vals).length = vals.length := by
  intro vals
  induction vals with
  | nil => intro k; rfl
  | cons v rest ih => intro k; simp [writeGentxs, ih (k + 1)]

/-- The file at position `i` of the gentx write loop started at `k` is
named by index `k + i` and holds the `i`-th validator's gentx. -/
theorem writeGentxs_get : ∀ (vals : List GenesisValidator) (k i : Nat)
    (h : i < vals.length) (hTwo : i < (writeGentxs k vals).length),
    (writeGentxs k vals).get ⟨i, hTwo⟩ =
      ("gentx" ++ toString (k + i) ++ ".json", (vals.get ⟨i, h⟩).gentx) := by
  intro vals
  induction vals with
  | nil => intro k i h; simp at h
  | cons v rest ih =>
    intro k i h hTwo
    cases i with
    | zero => simp [writeGentxs, List.get]
    | succ j =>
      have hj : j < rest.length := by simpa using h
      have hjTwo : j < (writeGentxs (k + 1) rest).length := by
        rw [writeGentxs_length]; exact hj
      have := ih (k + 1) j hj hjTwo
      simp only [writeGentxs, List.get, this]
      have harith : k + 1 + j = k + (j + 1) := by omega
      rw [harith]

/-- `updateConfigFromGenesisValidators` never touches the gentx
directory. -/
theorem updateConfig_gentxFiles : ∀ (vals : List GenesisValidator) (st : ChainState),
    (updateConfigFromGenesisValidators vals st).1.gentxFiles = st.gentxFiles := by
  intro vals st
  unfold updateConfigFromGenesisValidators
  cases h : collectPeers 0 vals with
  | error e => rfl
  | ok pr =>
    obtain ⟨ps, ts⟩ := pr
    by_cases hps : ps.isEmpty <;> by_cases hts : ts.isEmpty <;> simp [hps, hts]

/-- On a non-empty validator list, the gentx directory ends up holding
exactly the files of the write loop, whatever else happens. -/
theorem applyGenesisValidators_gentxFiles : ∀ (vals : List GenesisValidator) (st : ChainState),
    vals ≠ [] → (applyGenesisValidators vals st).1.gentxFiles = writeGentxs 0 vals := by
  intro vals st hne
  unfold applyGenesisValidators
  rw [if_neg (by simpa using hne)]
  rw [updateConfig_gentxFiles]
  rfl

/-- **C5**: the join-transaction files are written in input order with
filenames preserving the index exactly — position `i` holds the file
`gentx<i>.json` with contribution `i`'s gentx — and the peer strings of a
successful collection appear in the same order as the validator list
(one entry per validator, index-aligned). -/
theorem gentx_and_peer_order :
    ∀ (vals : List GenesisValidator) (i : Nat) (h : i < vals.length)
      (hTwo : i < (writeGentxs 0 vals).length) (st : ChainState),
    (writeGentxs 0 vals).length = vals.length ∧
    (writeGentxs 0 vals).get ⟨i, hTwo⟩ =
      ("gentx" ++ toString i ++ ".json", (vals.get ⟨i, h⟩).gentx) ∧
    (applyGenesisValidators vals st).1.gentxFiles = writeGentxs 0 vals ∧
    (∀ (ps : List String) (ts : List TunneledPeer),
      collectPeers 0 vals = Except.ok (ps, ts) → ps = peerEntriesFrom 0 vals) := by
  intro vals i h hTwo st
  refine ⟨writeGentxs_length vals 0, ?_, ?_, ?_⟩
  · have hg := writeGentxs_get vals 0 i h hTwo
    simpa using hg
  · exact applyGenesisValidators_gentxFiles vals st (by intro e; subst e; simp at h)
  · intro ps ts hok
    exact (collectPeers_ok_elim vals 0 ps ts hok).1

/-- Witness for C5: in the three-validator scenario, file position 1 is
`gentx1.json` holding validator 1's gentx, and the collected peer strings
are the validators' entries in input order. -/
theorem gentx_and_peer_order_witness :
    (writeGentxs 0 scenarioVals).get ⟨1, by decide⟩ =
      ("gentx" ++ toString 1 ++ ".json", "g2") ∧
    (["idOne@1.2.3.4:26656", "idTwo@127.0.0.1:22001", "idThree@127.0.0.1:22002"] : List String) =
      peerEntriesFrom 0 scenarioVals := by
  have h := gentx_and_peer_order scenarioVals 1 (by decide) (by decide) emptyState
  exact ⟨h.2.1, h.2.2.2
    ["idOne@1.2.3.4:26656", "idTwo@127.0.0.1:22001", "idThree@127.0.0.1:22002"]
    [ { name := "relayA", address := "relaya.example:443", nodeID := "idTwo",
        localPort := "22001" },
      { name := "relayB", address := "relayb.example:443", nodeID := "idThree",
        localPort := "22002" } ] (by decide)⟩

/-! ## The duplicate-IP flag -/

/-- No tunnel bindings arise exactly when no validator declares a tunnel
descriptor. -/
theorem tunnelBindingsFrom_eq_nil : ∀ (vals : List GenesisValidator) (k : Nat),
    tunnelBindingsFrom k vals = [] ↔
      ∀ v ∈ vals, ∀ name address, v.peer.connection ≠ PeerConnection.httpTunnel name address := by
  intro vals
  induction vals with
  | nil => intro k; simp [tunnelBindingsFrom]
  | cons v rest ih =>
    intro k
    cases hc : v.peer.connection with
    | tcpAddress addr =>
      rw [tunnelBindingsFrom, hc, ih (k + 1)]
      constructor
      · intro hall w hw name address
        rcases List.mem_cons.mp hw with rfl | hw2
        · rw [hc]; intro hcontra; exact absurd hcontra (by simp)
        · exact hall w hw2 name address
      · intro hall w hw name address
        exact hall w (List.mem_cons_of_mem v hw) name address
    | httpTunnel name address =>
      rw [tunnelBindingsFrom, hc]
      constructor
      · intro hcontra; exact absurd hcontra (by simp)
      · intro hall
        exact absurd hc (hall v (List.mem_cons_self v rest) name address)
    | unknown =>
      rw [tunnelBindingsFrom, hc, ih (k + 1)]
      constructor
      · intro hall w hw name address
        rcases List.mem_cons.mp hw with rfl | hw2
        · rw [hc]; intro hcontra; exact absurd hcontra (by simp)
        · exact hall w hw2 name address
      · intro hall w hw name address
        exact hall w (List.mem_cons_of_mem v hw) name address

/-- One peer entry is collected per validator. -/
theorem peerEntriesFrom_length : ∀ (vals : List GenesisValidator) (k : Nat),
    (peerEntriesFrom k vals).length = vals.length := by
  intro vals
  induction vals with
  | nil => intro k; rfl
  | cons v rest ih => intro k; simp [peerEntriesFrom, ih (k + 1)]

/-- **C6**: starting from a configuration that does not already allow
duplicate IPs, the updated configuration has `allow_duplicate_ip` set to
true if and only if at least one validator of the (all well-formed) list
uses the tunnel topology. -/
theorem allow_duplicate_ip_iff_tunnel :
    ∀ (vals : List GenesisValidator) (st : ChainState),
    st.allowDuplicateIP = false →
    (∀ v ∈ vals, verifyPeerFormat v.peer = true) →
    ((updateConfigFromGenesisValidators vals st).1.allowDuplicateIP = true ↔
      ∃ v ∈ vals, ∃ name address, v.peer.connection = PeerConnection.httpTunnel name address) := by
  intro vals st hdup hval
  unfold updateConfigFromGenesisValidators
  rw [collectPeers_eq_of_valid vals 0 hval]
  by_cases hts : tunnelBindingsFrom 0 vals = []
  · have hrhs : ¬ ∃ v ∈ vals, ∃ name address,
        v.peer.connection = PeerConnection.httpTunnel name address := by
      rw [tunnelBindingsFrom_eq_nil] at hts
      rintro ⟨v, hv, name, address, hc⟩
      exact hts v hv name address hc
    by_cases hps : peerEntriesFrom 0 vals = []
    · simp [hps, hts, hdup, hrhs]
    · simp [hps, hts, hdup, hrhs, List.isEmpty_iff]
  · have hrhs : ∃ v ∈ vals, ∃ name address,
        v.peer.connection = PeerConnection.httpTunnel name address := by
      by_contra hno
      push_neg at hno
      exact hts ((tunnelBindingsFrom_eq_nil vals 0).mpr (by
        intro v hv name address
        exact hno v hv name address))
    have hvalsne : vals ≠ [] := by
      rintro rfl
      exact hts rfl
    have hps : peerEntriesFrom 0 vals ≠ [] := by
      intro hcontra
      have hlen := peerEntriesFrom_length vals 0
      rw [hcontra] at hlen
      exact hvalsne (List.eq_nil_of_length_eq_zero hlen.symm)
    simp [hts, hps, hrhs, List.isEmpty_iff]

/-- Witness for C6: the scenario list holds a tunneled validator, so the
flag is forced on from an initial configuration where it was off. -/
theorem allow_duplicate_ip_iff_tunnel_witness :
    emptyState.allowDuplicateIP = false ∧
    (updateConfigFromGenesisValidators scenarioVals emptyState).1.allowDuplicateIP = true := by
  refine ⟨rfl, ?_⟩
  refine (allow_duplicate_ip_iff_tunnel scenarioVals emptyState rfl (by decide)).mpr ?_
  refine ⟨{ gentx := "g2",
            peer := { id := "idTwo",
                      connection := PeerConnection.httpTunnel "relayA" "relaya.example:443" } },
    by decide, "relayA", "relaya.example:443", rfl⟩

/-! ## Aborting on a malformed peer descriptor -/

/-- `peerConfigUnchanged` composes. -/
theorem peerConfigUnchanged_trans {a b c : ChainState} :
    peerConfigUnchanged a b → peerConfigUnchanged b c → peerConfigUnchanged a c := by
  rintro ⟨hOne, hTwo, hThree⟩ ⟨hFour, hFive, hSix⟩
  exact ⟨hFour.trans hOne, hFive.trans hTwo, hSix.trans hThree⟩

/-- Applying genesis accounts never touches the peer configuration. -/
theorem applyGenesisAccounts_config : ∀ (accs : List GenesisAccount) (pfx : String)
    (st : ChainState), peerConfigUnchanged st (applyGenesisAccounts accs pfx st).1 := by
  intro accs
  induction accs with
  | nil => intro pfx st; exact ⟨rfl, rfl, rfl⟩
  | cons acc rest ih =>
    intro pfx st
    unfold applyGenesisAccounts
    cases changeAddressPfx acc.address pfx with
    | error e => exact ⟨rfl, rfl, rfl⟩
    | ok addr =>
      have hnext := ih pfx (addGenesisAccount addr acc.coins st)
      exact peerConfigUnchanged_trans ⟨rfl, rfl, rfl⟩ hnext

/-- Applying vesting accounts never touches the peer configuration. -/
theorem applyVestingAccounts_config : ∀ (accs : List VestingAccount) (pfx : String)
    (st : ChainState), peerConfigUnchanged st (applyVestingAccounts accs pfx st).1 := by
  intro accs
  induction accs with
  | nil => intro pfx st; exact ⟨rfl, rfl, rfl⟩
  | cons acc rest ih =>
    intro pfx st
    unfold applyVestingAccounts
    cases changeAddressPfx acc.address pfx with
    | error e => exact ⟨rfl, rfl, rfl⟩
    | ok addr =>
      have hnext := ih pfx (addVestingAccount addr acc.totalBalance acc.vesting acc.endTime st)
      exact peerConfigUnchanged_trans ⟨rfl, rfl, rfl⟩ hnext

/-- A validator list holding a malformed descriptor makes the validator
application step fail and leaves the peer configuration untouched
(although the gentx directory and the gathered gentxs have already been
mutated by then). -/
theorem applyGenesisValidators_invalid : ∀ (vals : List GenesisValidator) (st : ChainState),
    (∃ v ∈ vals, verifyPeerFormat v.peer = false) →
    (applyGenesisValidators vals st).2.isSome = true ∧
    peerConfigUnchanged st (applyGenesisValidators vals st).1 := by
  intro vals st hbad
  have hne : vals ≠ [] := by
    rintro rfl
    simp at hbad
  obtain ⟨e, he⟩ := collectPeers_error_of_invalid vals 0 hbad
  unfold applyGenesisValidators
  rw [if_neg (by simpa using hne)]
  unfold updateConfigFromGenesisValidators
  rw [he]
  exact ⟨rfl, rfl, rfl, rfl⟩

/-- **C1 (amended)**: a contribution set holding a validator with a
malformed peer descriptor always aborts the genesis build with an error,
and no peer configuration is written (`p2p.persistent_peers`,
`p2p.allow_duplicate_ip` and the SPN tunnel file are untouched); the
build is however not atomic with respect to the persisted genesis: the
gentx files are written and gathered into the genesis before peer
validation runs, so genesis mutations made by the earlier steps
survive the abort. -/
theorem buildGenesis_malformed_peer_aborts :
    ∀ (prefixRes : Except String String) (launchTime : Int)
      (gi : GenesisInformation) (st : ChainState),
    (∃ v ∈ gi.genesisValidators, verifyPeerFormat v.peer = false) →
    (buildGenesis prefixRes launchTime gi st).2.isSome = true ∧
    peerConfigUnchanged st (buildGenesis prefixRes launchTime gi st).1 := by
  intro prefixRes launchTime gi st hbad
  rcases prefixRes with e | pfx
  · exact ⟨rfl, rfl, rfl, rfl⟩
  · have hcfgAcc := applyGenesisAccounts_config gi.genesisAccounts pfx st
    rcases hOne : applyGenesisAccounts gi.genesisAccounts pfx st with ⟨stOne, errOne⟩
    rw [hOne] at hcfgAcc
    cases errOne with
    | some e =>
      constructor
      · simp [buildGenesis, hOne]
      · have hred : (buildGenesis (Except.ok pfx) launchTime gi st).1 = stOne := by
          simp [buildGenesis, hOne]
        rw [hred]
        exact hcfgAcc
    | none =>
      have hcfgVest := applyVestingAccounts_config gi.vestingAccounts pfx stOne
      rcases hTwo : applyVestingAccounts gi.vestingAccounts pfx stOne with ⟨stTwo, errTwo⟩
      rw [hTwo] at hcfgVest
      cases errTwo with
      | some e =>
        constructor
        · simp [buildGenesis, hOne, hTwo]
        · have hred : (buildGenesis (Except.ok pfx) launchTime gi st).1 = stTwo := by
            simp [buildGenesis, hOne, hTwo]
          rw [hred]
          exact peerConfigUnchanged_trans hcfgAcc hcfgVest
      | none =>
        have hval := applyGenesisValidators_invalid gi.genesisValidators stTwo hbad
        rcases hThree : applyGenesisValidators gi.genesisValidators stTwo with ⟨stThree, errThree⟩
        rw [hThree] at hval
        cases errThree with
        | some e =>
          constructor
          · simp [buildGenesis, hOne, hTwo, hThree]
          · have hred : (buildGenesis (Except.ok pfx) launchTime gi st).1 = stThree := by
              simp [buildGenesis, hOne, hTwo, hThree]
            rw [hred]
            exact peerConfigUnchanged_trans (peerConfigUnchanged_trans hcfgAcc hcfgVest) hval.2
        | none => exact absurd hval.1 (by simp)

/-- Counterexample to C1 as stated: with one malformed descriptor in the
set, the build does abort and writes no peer configuration, but the
persisted genesis is *not* unchanged — the well-formed validator's gentx
(and the malformed one's) have already been gathered into the genesis
when peer validation fails. -/
theorem genesis_mutated_despite_malformed_peer :
    (buildGenesis (Except.ok "spn") 42 giBad emptyState).2.isSome = true ∧
    (buildGenesis (Except.ok "spn") 42 giBad emptyState).1.genesisGentxs ≠
      emptyState.genesisGentxs := by
  decide

/-- Witness for C1 (amended): the concrete malformed contribution set
aborts with the peer configuration untouched. -/
theorem buildGenesis_malformed_peer_aborts_witness :
    (buildGenesis (Except.ok "spn") 42 giBad emptyState).2.isSome = true ∧
    peerConfigUnchanged emptyState (buildGenesis (Except.ok "spn") 42 giBad emptyState).1 :=
  buildGenesis_malformed_peer_aborts (Except.ok "spn") 42 giBad emptyState
    ⟨badPeerVal, by decide, rfl⟩

/-! ## The binary build cache -/

/-- An absent on-disk checksum never matches a stored record. -/
theorem checkBinaryCache_none : ∀ (cache : List CachedRecord) (launchID : Nat)
    (sourceHash : String),
    checkBinaryCacheForLaunchID cache launchID none sourceHash = false := by
  intro cache launchID sourceHash
  unfold checkBinaryCacheForLaunchID
  cases h : cache.find? (fun r => r.launchID == launchID) with
  | none => rfl
  | some r => simp

/-- The rebuild phase never reports a cache hit. -/
theorem buildRebuild_flag : ∀ (env : BuildEnv) (cache : List CachedRecord)
    (launchID : Nat) (sourceHash : String) (res : String × List CachedRecord × Bool),
    buildRebuild env cache launchID sourceHash = Except.ok res → res.2.2 = false := by
  intro env cache launchID sourceHash res h
  unfold buildRebuild at h
  cases hb : env.buildRes with
  | error e => rw [hb] at h; exact absurd h (by simp)
  | ok bn =>
    rw [hb] at h
    cases hc : env.postChecksum with
    | error e => rw [hc] at h; exact absurd h (by simp)
    | ok c =>
      rw [hc] at h
      simp at h
      rw [← h]

/-- **C2**: with the binary name and the on-disk checksum both readable,
`Build`'s cache lookup short-circuits — returning the existing binary
path, the unchanged cache and the hit flag — if and only if the launch
identity is non-zero, the cache holds a record for that identity with the
same source hash, and the recomputed on-disk checksum equals the stored
one.  In particular a zero launch identity never hits. -/
theorem build_lookup_hit_iff :
    ∀ (env : BuildEnv) (cache : List CachedRecord) (launchID : Nat)
      (sourceHash bn c : String),
    env.binaryName = Except.ok bn → env.diskChecksum = Except.ok c →
    (build env cache launchID sourceHash = Except.ok (bn, cache, true) ↔
      (launchID ≠ 0 ∧ ∃ r, cache.find? (fun x => x.launchID == launchID) = some r ∧
        r.sourceHash = sourceHash ∧ r.checksum = c)) := by
  intro env cache launchID sourceHash bn c hbn hc
  by_cases hZero : launchID = 0
  · subst hZero
    constructor
    · intro hcontra
      have hflag := buildRebuild_flag env cache 0 sourceHash (bn, cache, true)
      simp only [build, buildLookup, beq_self_eq_true, if_pos] at hcontra
      exact absurd (hflag hcontra) (by simp)
    · rintro ⟨hne, _⟩
      exact absurd rfl hne
  · have hlid : (launchID == 0) = false := by simpa using hZero
    by_cases hchk : checkBinaryCacheForLaunchID cache launchID (some c) sourceHash = true
    · have hbuild : build env cache launchID sourceHash = Except.ok (bn, cache, true) := by
        simp [build, buildLookup, hlid, hbn, hc, hchk]
      rw [hbuild]
      unfold checkBinaryCacheForLaunchID at hchk
      cases hfind : cache.find? (fun r => r.launchID == launchID) with
      | none => rw [hfind] at hchk; exact absurd hchk (by simp)
      | some r =>
        rw [hfind] at hchk
        simp at hchk
        exact iff_of_true rfl ⟨hZero, r, rfl, hchk.1, hchk.2.symm⟩
    · have hbuild : build env cache launchID sourceHash =
          buildRebuild env cache launchID sourceHash := by
        simp [build, buildLookup, hlid, hbn, hc, hchk]
      rw [hbuild]
      constructor
      · intro hcontra
        have hflag := buildRebuild_flag env cache launchID sourceHash (bn, cache, true) hcontra
        exact absurd hflag (by simp)
      · rintro ⟨_, r, hfind, hs, hcs⟩
        exact absurd (by simp [checkBinaryCacheForLaunchID, hfind, hs, hcs]) hchk

/-- Witness for C2: the concrete environment whose on-disk binary matches
the stored record hits the cache and short-circuits. -/
theorem build_lookup_hit_iff_witness :
    build envHit cacheWithHit 5 "srchash" = Except.ok ("spnd", cacheWithHit, true) :=
  (build_lookup_hit_iff envHit cacheWithHit 5 "srchash" "spnd" "sum-1" rfl rfl).mpr
    ⟨by decide, { launchID := 5, sourceHash := "srchash", checksum := "sum-1" },
      by decide, rfl, rfl⟩

/-- **C7 (amended)**: during `Build`'s cache-lookup phase a "tool not
found" checksum failure is not fatal and is treated as a cache miss (the
run proceeds to the rebuild phase), while any other lookup checksum error
aborts with that error; the post-build checksum recomputation, however,
treats every failure as fatal. -/
theorem lookup_checksum_errors :
    ∀ (env : BuildEnv) (cache : List CachedRecord) (launchID : Nat)
      (sourceHash bn m : String),
    launchID ≠ 0 → env.binaryName = Except.ok bn →
    (env.diskChecksum = Except.error ChecksumErr.toolNotFound →
      build env cache launchID sourceHash = buildRebuild env cache launchID sourceHash) ∧
    (env.diskChecksum = Except.error (ChecksumErr.other m) →
      build env cache launchID sourceHash = Except.error m) := by
  intro env cache launchID sourceHash bn m hZero hbn
  have hlid : (launchID == 0) = false := by simpa using hZero
  constructor
  · intro hcs
    simp [build, buildLookup, hlid, hbn, hcs, checkBinaryCache_none]
  · intro hcs
    simp [build, buildLookup, hlid, hbn, hcs, checksumErrMsg]

/-- Witness for C7 (amended): the concrete lookup-time "tool not found"
failure degrades to a plain rebuild. -/
theorem lookup_checksum_errors_witness :
    build envLookupNotFound cacheWithHit 5 "srchash" =
      buildRebuild envLookupNotFound cacheWithHit 5 "srchash" :=
  (lookup_checksum_errors envLookupNotFound cacheWithHit 5 "srchash" "spnd" "msg"
    (by decide) rfl).1 rfl

/-- Counterexample to C7 as stated: a "tool not found" checksum failure
during `Build` *is* fatal when it occurs in the post-build recomputation
— here `Build` aborts with exactly that error. -/
theorem build_fatal_tool_not_found :
    build envPostNotFound [] 0 "srchash" =
      Except.error (checksumErrMsg ChecksumErr.toolNotFound) := by
  decide

/-- **C10**: after every successful binary build the checksum is
recomputed and the cache record is stored unconditionally — the launch
identity is not inspected, so an identity of zero (for which the lookup
phase is always skipped) is stored too — while any failure of the
post-build checksum recomputation, the "tool not found" class included,
aborts `Build` with an error. -/
theorem build_post_checksum_and_store :
    ∀ (env : BuildEnv) (cache : List CachedRecord) (launchID : Nat)
      (sourceHash bn : String),
    env.buildRes = Except.ok bn →
    (∀ e, env.postChecksum = Except.error e →
      buildRebuild env cache launchID sourceHash = Except.error (checksumErrMsg e)) ∧
    (∀ c, env.postChecksum = Except.ok c →
      buildRebuild env cache launchID sourceHash =
        Except.ok (bn,
          { launchID := launchID, sourceHash := sourceHash, checksum := c } ::
            cache.filter (fun r => r.launchID ≠ launchID), false)) ∧
    (buildLookup env cache launchID sourceHash = Except.ok none →
      build env cache launchID sourceHash = buildRebuild env cache launchID sourceHash) ∧
    build env cache 0 sourceHash = buildRebuild env cache 0 sourceHash := by
  intro env cache launchID sourceHash bn hb
  refine ⟨?_, ?_, ?_, ?_⟩
  · intro e he
    simp [buildRebuild, hb, he]
  · intro c hc
    simp [buildRebuild, hb, hc, cacheBinaryForLaunchID]
  · intro hl
    simp [build, hl]
  · rfl

/-- Witness for C10: the concrete post-build "tool not found" checksum
failure aborts the rebuild phase. -/
theorem build_post_checksum_and_store_witness :
    buildRebuild envPostNotFound [] 0 "srchash" =
      Except.error (checksumErrMsg ChecksumErr.toolNotFound) :=
  (build_post_checksum_and_store envPostNotFound [] 0 "srchash" "spnd" rfl).1
    ChecksumErr.toolNotFound rfl

/-! ## The preparation state machine -/

/-- **C8**: `Prepare` selects its entry branch solely from the
home-directory stat: with the home present the trace never holds the
full initialization (the validator key is untouched); with the home
absent the run starts with the full initialization (on success the key is
freshly generated); and every successful run, whichever branch it took,
ends by building the genesis, validating it and resetting the local chain
state, in that order. -/
theorem prepare_branches :
    ∀ (env : PrepareEnv) (st : NodeState),
    (env.homeStat = StatRes.present →
      Op.init ∉ (prepare env st).2.1 ∧ (prepare env st).1.validatorKey = st.validatorKey) ∧
    (env.homeStat = StatRes.absent → env.initRes = Except.ok () →
      (prepare env st).2.1.head? = some Op.init ∧
      (prepare env st).1.validatorKey = some env.freshKey) ∧
    ((prepare env st).2.2 = none →
      (prepare env st).2.1 =
        (if env.homeStat = StatRes.absent then [Op.init]
          else [Op.chainBuild, Op.initGenesis]) ++
        [Op.buildGenesis, Op.validateGenesis, Op.resetState]) := by
  intro env st
  rcases env with ⟨hs, ir, fk, bn, cb, ig, bg, vr, rr⟩
  cases hs <;> cases ir <;> cases bn <;> cases cb <;> cases ig <;>
    cases bg <;> cases vr <;> cases rr <;>
    simp [prepare, prepareTail]

/-- Witness for C8: with the home present the key survives and no init
runs; with the home absent the run starts with init and installs the
fresh key. -/
theorem prepare_branches_witness :
    (Op.init ∉ (prepare envHome keyedState).2.1 ∧
      (prepare envHome keyedState).1.validatorKey = keyedState.validatorKey) ∧
    ((prepare envNoHome keyedState).2.1.head? = some Op.init ∧
      (prepare envNoHome keyedState).1.validatorKey = some envNoHome.freshKey) :=
  ⟨(prepare_branches envHome keyedState).1 rfl,
    (prepare_branches envNoHome keyedState).2.1 rfl rfl⟩

/-- **C3 (amended)**: when the home directory already exists, `Prepare`'s
rebuild branch rebuilds the binary by invoking the underlying chain
service's build directly as its first operation, and never consults the
build cache. -/
theorem prepare_rebuild_bypasses_cache :
    ∀ (env : PrepareEnv) (st : NodeState), env.homeStat = StatRes.present →
    (prepare env st).2.1.head? = some Op.chainBuild ∧
    Op.cacheLookup ∉ (prepare env st).2.1 := by
  intro env st h
  rcases env with ⟨hs, ir, fk, bn, cb, ig, bg, vr, rr⟩
  subst h
  cases cb <;> cases ig <;> cases bg <;> cases vr <;> cases rr <;>
    simp [prepare, prepareTail]

/-- Counterexample to C3 as stated: a concrete rebuild run (home present,
all steps succeeding) rebuilds the binary although its trace never
consults the build cache — there is no cache consultation before (or
after) the rebuild. -/
theorem prepare_ignores_cache_counterexample :
    envHome.homeStat = StatRes.present ∧
    Op.chainBuild ∈ (prepare envHome keyedState).2.1 ∧
    Op.cacheLookup ∉ (prepare envHome keyedState).2.1 := by
  decide

/-- Witness for C3 (amended): the concrete rebuild run starts with the
raw chain build and never touches the cache. -/
theorem prepare_rebuild_bypasses_cache_witness :
    (prepare envHome keyedState).2.1.head? = some Op.chainBuild ∧
    Op.cacheLookup ∉ (prepare envHome keyedState).2.1 :=
  prepare_rebuild_bypasses_cache envHome keyedState rfl

/-! ## Source fetching -/

/-- **C9**: a fetch with a pinned content hash checks out exactly the
commit the pin resolves to and returns the pin itself as the resolved
hash; a fetch without a pin checks nothing out and returns the clone's
current HEAD hash. -/
theorem fetchSource_pin_and_head :
    ∀ (tmp url ref pin : String) (clone : String → String → Except String Repo)
      (repo : Repo) (resolved headHash : String),
    clone url ref = Except.ok repo →
    (pin ≠ "" → repo.resolve pin = some resolved → repo.checkoutFails resolved = false →
      fetchSource tmp clone url ref pin = Except.ok (tmp, pin, some resolved)) ∧
    (repo.head = some headHash →
      fetchSource tmp clone url ref "" = Except.ok (tmp, headHash, none)) := by
  intro tmp url ref pin clone repo resolved headHash hclone
  constructor
  · intro hpin hres hco
    simp [fetchSource, hclone, hpin, hres, hco]
  · intro hhead
    simp [fetchSource, hclone, hhead]

/-- Witness for C9: on the concrete repository the pinned fetch returns
the pin and checks out its resolution; the unpinned fetch returns the
head hash. -/
theorem fetchSource_pin_and_head_witness :
    fetchSource "tmpdir" cloneOne "https://example/repo" "refs/heads/main" "abc123" =
      Except.ok ("tmpdir", "abc123", some "abc123full") ∧
    fetchSource "tmpdir" cloneOne "https://example/repo" "refs/heads/main" "" =
      Except.ok ("tmpdir", "headhash", none) := by
  have h := fetchSource_pin_and_head "tmpdir" "https://example/repo" "refs/heads/main"
    "abc123" cloneOne repoOne "abc123full" "headhash" rfl
  exact ⟨h.1 (by decide) rfl rfl, h.2 rfl⟩

end NetworkChain
